import Mathlib

/-!
Verification of the frame-aware image transform engine of `vrcprintutils.py`.

The Python program manipulates PIL RGB images.  We embed images shallowly as a
width, a height and a total pixel function `Nat → Nat → RGB`; only the values at
coordinates `x < width`, `y < height` are meaningful.  Channel values are `Nat`;
an image is `Valid` when every channel is `≤ 255` (PIL guarantees this for real
images).  Fallible operations (PIL raises `IndexError` on an out-of-bounds
`getpixel`, `ValueError` on an unsupported size) are modelled with `Option` and
`Except`.  Python float arithmetic is modelled with exact rationals, at two
places with different fidelity:
- the geometry constants (`1080/1920 = 0.5625` is binary-exact, the border
  products are binary-exact and rounded far from any tie, the mask shares are
  rounded at points that are exact integers up to an error of about `1e-13`),
  where the rational model agrees with the float computation at every input
  any theorem touches;
- the luma threshold `0.2126*r + 0.7152*g + 0.0722*b > 127`, where the double
  computation carries an accumulated rounding error below `2^-40`.  The exact
  luma is a multiple of `1/10000` (see `lumQ_threshold_margin`), so whenever it
  is not EXACTLY equal to the threshold the margin is at least `1/10000` and
  the rational and double comparisons agree; when it is exactly equal, the
  double rounding alone decides the side (for example the pixel
  `(110, 137, 78)` has exact luma exactly 127, but its double luma is
  `127 + 2^-46`, so the program classifies it light while the exact comparison
  does not).  Every theorem below that depends on which side of the threshold
  an input falls either excludes those exact-tie lumas by hypothesis, uses
  concrete inputs with margins far above `2^-40`, or is conditioned on the
  Boolean the classifier returned; the remaining theorems are independent of
  the comparison's outcome.
-/

/-- An RGB pixel; channels are natural numbers, `≤ 255` for real pixels. -/
structure RGB where
  r : Nat
  g : Nat
  b : Nat
deriving DecidableEq, Repr

/-- A pixel has all three channels in the 8-bit range. -/
def RGB.InRange (c : RGB) : Prop := c.r ≤ 255 ∧ c.g ≤ 255 ∧ c.b ≤ 255

instance (c : RGB) : Decidable c.InRange := by
  unfold RGB.InRange
  infer_instance

/-- An RGB raster image: dimensions plus a (total) pixel function. -/
structure Img where
  width : Nat
  height : Nat
  pix : Nat → Nat → RGB

/-- All in-bounds pixels of the image are 8-bit. -/
def Img.Valid (im : Img) : Prop :=
  ∀ x y : Nat, x < im.width → y < im.height → (im.pix x y).InRange

/-- `Image.new("RGB", (w, h), c)`: a constant image. -/
def Img.new (w h : Nat) (c : RGB) : Img := ⟨w, h, fun _ _ => c⟩

/-- `im.getpixel((x, y))`: PIL raises `IndexError` outside the image, which we
model as `none`. -/
def getpixel (im : Img) (x y : Nat) : Option RGB :=
  if x < im.width ∧ y < im.height then some (im.pix x y) else none

/-- `canvas.paste(src, (px, py))`: overwrite the rectangle of `src`'s size at
offset `(px, py)`; PIL clips the pasted region to the canvas, and the canvas
size is unchanged. -/
def Img.paste (canvas src : Img) (px py : Nat) : Img :=
  { width := canvas.width, height := canvas.height,
    pix := fun x y =>
      if px ≤ x ∧ x < px + src.width ∧ py ≤ y ∧ y < py + src.height then
        src.pix (x - px) (y - py)
      else canvas.pix x y }

/-- `im.crop((l, t, r, b))`: the box may reach outside the image (PIL fills
with black there), so the box coordinates are integers. -/
def crop (im : Img) (l t r b : Int) : Img :=
  { width := (r - l).toNat, height := (b - t).toNat,
    pix := fun x y =>
      let sx : Int := l + x
      let sy : Int := t + y
      if 0 ≤ sx ∧ sx < (im.width : Int) ∧ 0 ≤ sy ∧ sy < (im.height : Int) then
        im.pix sx.toNat sy.toNat
      else ⟨0, 0, 0⟩ }

/-- Bitwise 8-bit color inversion of one pixel (`255 - c` per channel). -/
def invertRGB (c : RGB) : RGB := ⟨255 - c.r, 255 - c.g, 255 - c.b⟩

/-- `ImageOps.invert`: invert every channel of every pixel. -/
def invertImg (im : Img) : Img :=
  { width := im.width, height := im.height,
    pix := fun x y => invertRGB (im.pix x y) }

-- geometry constants (vrcprintutils.py lines 28-38)

def ORIG_W : Nat := 2048
def ORIG_H : Nat := 1440
def SIDE_BORDER : Nat := 64
def TOP_BORDER : Nat := 69
def BOTTOM_TEXT : Nat := 291
def INNER_W : Nat := ORIG_W - 2 * SIDE_BORDER
def INNER_H : Nat := ORIG_H - TOP_BORDER - BOTTOM_TEXT

/-- `SCALE = 1080 / 1920.0`; the float value is exactly `9/16`. -/
def SCALE : ℚ := 1080 / 1920

/-- `int(round(SIDE_BORDER * SCALE))`; the product `36.0` is a float-exact
integer, so rational rounding agrees with the float computation. -/
def SIDE_SCALED : Nat := (round ((SIDE_BORDER : ℚ) * SCALE)).toNat

/-- `int(round(TOP_BORDER * SCALE))` (`38.8125`, float-exact, no tie). -/
def TOP_SCALED : Nat := (round ((TOP_BORDER : ℚ) * SCALE)).toNat

/-- `int(round(BOTTOM_TEXT * SCALE))` (`163.6875`, float-exact, no tie). -/
def BOTTOM_TEXT_SCALED : Nat := (round ((BOTTOM_TEXT : ℚ) * SCALE)).toNat

def PORT_W : Nat := 1080 + 2 * SIDE_SCALED
def PORT_H : Nat := 1920 + TOP_SCALED + BOTTOM_TEXT_SCALED

/-- The two recognized geometries. -/
inductive Fmt where
  | landscape
  | portrait
deriving DecidableEq, Repr

/-- Total canvas size of a geometry. -/
def fmt_size (fmt : Fmt) : Nat × Nat :=
  match fmt with
  | .landscape => (ORIG_W, ORIG_H)
  | .portrait => (PORT_W, PORT_H)

/-- Caption-bar height of a geometry. -/
def bar_height (fmt : Fmt) : Nat :=
  match fmt with
  | .landscape => BOTTOM_TEXT
  | .portrait => BOTTOM_TEXT_SCALED

/-- The opposite geometry. -/
def opposite (fmt : Fmt) : Fmt :=
  match fmt with
  | .landscape => .portrait
  | .portrait => .landscape

-- small evaluation facts about the derived constants

theorem SIDE_SCALED_eq : SIDE_SCALED = 36 := by
  have h : round ((SIDE_BORDER : ℚ) * SCALE) = 36 := by
    unfold SIDE_BORDER SCALE; rw [round_eq]; norm_num
  unfold SIDE_SCALED; rw [h]; rfl

theorem TOP_SCALED_eq : TOP_SCALED = 39 := by
  have h : round ((TOP_BORDER : ℚ) * SCALE) = 39 := by
    unfold TOP_BORDER SCALE; rw [round_eq]; norm_num
  unfold TOP_SCALED; rw [h]; rfl

theorem BOTTOM_TEXT_SCALED_eq : BOTTOM_TEXT_SCALED = 164 := by
  have h : round ((BOTTOM_TEXT : ℚ) * SCALE) = 164 := by
    unfold BOTTOM_TEXT SCALE; rw [round_eq]; norm_num
  unfold BOTTOM_TEXT_SCALED; rw [h]; rfl

theorem PORT_W_eq : PORT_W = 1152 := by
  unfold PORT_W; rw [SIDE_SCALED_eq]

theorem PORT_H_eq : PORT_H = 2123 := by
  unfold PORT_H; rw [TOP_SCALED_eq, BOTTOM_TEXT_SCALED_eq]

theorem INNER_W_eq : INNER_W = 1920 := by decide
theorem INNER_H_eq : INNER_H = 1080 := by decide

-- ---- core helpers (vrcprintutils.py lines 71-90) ----

/-- Payload of the `ValueError` raised by `detect_format`; the message
interpolates the offending width and height and both expected sizes. -/
structure UnsupportedGeometry where
  width : Nat
  height : Nat
  expectedLandscape : Nat × Nat
  expectedPortrait : Nat × Nat
deriving DecidableEq, Repr

/-- `detect_format`: exact comparison of `(w, h)` against the two geometry
totals, raising on any other size. -/
def detect_format (im : Img) : Except UnsupportedGeometry Fmt :=
  if (im.width, im.height) = (ORIG_W, ORIG_H) then .ok .landscape
  else if (im.width, im.height) = (PORT_W, PORT_H) then .ok .portrait
  else .error ⟨im.width, im.height, (ORIG_W, ORIG_H), (PORT_W, PORT_H)⟩

/-- `picture_rect`: the photo rectangle `(left, top, right, bottom)` of a
geometry. -/
def picture_rect (fmt : Fmt) : Nat × Nat × Nat × Nat :=
  match fmt with
  | .landscape => (SIDE_BORDER, TOP_BORDER, SIDE_BORDER + INNER_W, TOP_BORDER + INNER_H)
  | .portrait => (SIDE_SCALED, TOP_SCALED, SIDE_SCALED + 1080, TOP_SCALED + 1920)

/-- Pixel `(x, y)` lies in the half-open box `(left, top, right, bottom)`. -/
def inRect (rect : Nat × Nat × Nat × Nat) (x y : Nat) : Prop :=
  rect.1 ≤ x ∧ x < rect.2.2.1 ∧ rect.2.1 ≤ y ∧ y < rect.2.2.2

instance (rect : Nat × Nat × Nat × Nat) (x y : Nat) : Decidable (inRect rect x y) := by
  unfold inRect
  infer_instance

/-- `extract_inner`: crop the photo rectangle. -/
def extract_inner (im : Img) (fmt : Fmt) : Img :=
  crop im (picture_rect fmt).1 (picture_rect fmt).2.1
    (picture_rect fmt).2.2.1 (picture_rect fmt).2.2.2

/-- The luma `0.2126*r + 0.7152*g + 0.0722*b`, with the float weights modelled
by their exact decimal values — always a multiple of `1/10000`.  The program's
double evaluation differs from this exact value by less than `2^-40`, so the
two sides of any comparison against an integer threshold agree except when the
exact luma equals the threshold exactly (margin zero); see the header note and
`lumQ_threshold_margin`. -/
def lumQ (c : RGB) : ℚ :=
  (2126 / 10000) * c.r + (7152 / 10000) * c.g + (722 / 10000) * c.b

/-- `frame_is_light`: sample pixel `(1, 1)` (raising out of bounds on images
thinner than 2 pixels, modelled as `none`) and threshold the luma at 127.  The
comparison is the exact-rational one; it coincides with the program's double
comparison on every pixel whose exact luma is not exactly 127 (every theorem
relying on its outcome stays inside that domain or conditions on the returned
Boolean). -/
def frame_is_light (im : Img) : Option Bool :=
  (getpixel im 1 1).map fun c => decide (127 < lumQ c)

-- ---- bicubic resize ----

/-- PIL's bicubic filter kernel (Keys kernel with `a = -1/2`, support 2). -/
def bicubicKernel (x : ℚ) : ℚ :=
  let t := |x|
  if t < 1 then (3 / 2) * t ^ 3 - (5 / 2) * t ^ 2 + 1
  else if t < 2 then -((1 / 2) * (t ^ 3 - 5 * t ^ 2 + 8 * t - 4))
  else 0

/-- The list of source indices and filter weights contributing to output index
`i` when resampling one axis from `inSize` to `outSize` samples, following
PIL's placement: the window is centred at `(i + 1/2) * scale` and widened by
the scale factor when downscaling, and is clipped to the source bounds. -/
def resampleTaps (inSize outSize i : Nat) : List (Nat × ℚ) :=
  let scale : ℚ := (inSize : ℚ) / (outSize : ℚ)
  let filterscale : ℚ := max scale 1
  let support : ℚ := 2 * filterscale
  let center : ℚ := ((i : ℚ) + 1 / 2) * scale
  let lo : Nat := (max 0 ⌊center - support + 1 / 2⌋).toNat
  let hi : Nat := min inSize (max 0 ⌊center + support + 1 / 2⌋).toNat
  (List.range (hi - lo)).map fun k =>
    (lo + k, bicubicKernel (((lo + k : Nat) - center + 1 / 2) / filterscale))

/-- Round a rational sample to an 8-bit channel value. -/
def clamp255 (q : ℚ) : Nat := min 255 (max 0 (round q)).toNat

/-- `im.resize((w, h), Image.BICUBIC)`, modelled in exact rational arithmetic
with normalized separable weights.  PIL evaluates the same weighted sums in two
passes with 8-bit fixed-point coefficients and a clipped intermediate image, so
individual channel values may differ from PIL's by small quantization; none of
the theorems below depend on resampled channel values, only on the dimensions
and placement of resized strips. -/
def resizeBicubic (im : Img) (w h : Nat) : Img :=
  { width := w, height := h,
    pix := fun x y =>
      let tx := resampleTaps im.width w x
      let ty := resampleTaps im.height h y
      let tot : ℚ := (tx.map Prod.snd).sum * (ty.map Prod.snd).sum
      let chan : (RGB → Nat) → ℚ := fun ch =>
        ((ty.map fun jy =>
            jy.2 * ((tx.map fun jx => jx.2 * (ch (im.pix jx.1 jy.1) : ℚ)).sum)).sum) / tot
      ⟨clamp255 (chan RGB.r), clamp255 (chan RGB.g), clamp255 (chan RGB.b)⟩ }

-- ---- orientation rebuilds (vrcprintutils.py lines 93-127) ----

/-- The height of the caption strip taken from a source frame
(`src_bottom_h`): the landscape constant when the source has the exact
landscape size, the scaled constant otherwise. -/
def source_bottom_h (source : Img) : Nat :=
  if (source.width, source.height) = (ORIG_W, ORIG_H) then BOTTOM_TEXT
  else BOTTOM_TEXT_SCALED

/-- The caption strip that the rebuild functions feed into the bicubic resize
(`bottom_src`): the bottom strip of the source frame, color-inverted when the
source frame is classified dark (`if not frame_is_light(source_frame)`). -/
def bottom_src_strip (source : Img) (isLight : Bool) : Img :=
  let strip := crop source 0 ((source.height : Int) - (source_bottom_h source : Int))
    (source.width : Int) (source.height : Int)
  if isLight then strip else invertImg strip

/-- `build_landscape`: white canvas, paste the photo at the landscape photo
offset, then paste the (conditionally inverted) resized caption strip at the
bottom.  `frame_is_light` raises (modelled `none`) when the source frame is
thinner than 2 pixels. -/
def build_landscape (pic source : Img) : Option Img :=
  (frame_is_light source).map fun isLight =>
    let canvas := (Img.new ORIG_W ORIG_H ⟨255, 255, 255⟩).paste pic SIDE_BORDER TOP_BORDER
    let bottom_resized := resizeBicubic (bottom_src_strip source isLight) ORIG_W BOTTOM_TEXT
    canvas.paste bottom_resized 0 (ORIG_H - BOTTOM_TEXT)

/-- `build_portrait`: white canvas, paste the photo at the portrait photo
offset, then paste the (conditionally inverted) resized caption strip at the
bottom. -/
def build_portrait (pic source : Img) : Option Img :=
  (frame_is_light source).map fun isLight =>
    let canvas := (Img.new PORT_W PORT_H ⟨255, 255, 255⟩).paste pic SIDE_SCALED TOP_SCALED
    let bottom_resized := resizeBicubic (bottom_src_strip source isLight) PORT_W BOTTOM_TEXT_SCALED
    canvas.paste bottom_resized 0 (PORT_H - BOTTOM_TEXT_SCALED)

/-- Rotation direction of the orientation transform. -/
inductive Direction where
  | clockwise
  | counterclockwise
deriving DecidableEq, Repr

/-- `Image.ROTATE_90`: 90 degrees counterclockwise; dimensions swap. -/
def transpose_rot90 (im : Img) : Img :=
  ⟨im.height, im.width, fun x y => im.pix (im.width - 1 - y) x⟩

/-- `Image.ROTATE_270`: 90 degrees clockwise; dimensions swap. -/
def transpose_rot270 (im : Img) : Img :=
  ⟨im.height, im.width, fun x y => im.pix y (im.height - 1 - x)⟩

/-- `pic_rot`: `ROTATE_270` for a clockwise request, `ROTATE_90` for a
counterclockwise one. -/
def rotate_pic (pic : Img) (dir : Direction) : Img :=
  match dir with
  | .clockwise => transpose_rot270 pic
  | .counterclockwise => transpose_rot90 pic

/-- `rotate_orientation`: extract the photo, rotate it 90 degrees in the named
direction, and rebuild into the opposite geometry using the original image as
the source frame. -/
def rotate_orientation (im : Img) (fmt : Fmt) (dir : Direction) : Option Img :=
  let pic := extract_inner im fmt
  let pic_rot := rotate_pic pic dir
  match fmt with
  | .landscape => build_portrait pic_rot im
  | .portrait => build_landscape pic_rot im

-- ---- precise frame mask and toggle (vrcprintutils.py lines 130-165) ----

/-- An 8-bit grayscale image (PIL mode `L`), used as a mask. -/
structure GrayImg where
  width : Nat
  height : Nat
  pix : Nat → Nat → Nat

/-- `Image.new("L", (w, h), v)`. -/
def GrayImg.new (w h v : Nat) : GrayImg := ⟨w, h, fun _ _ => v⟩

/-- `mask.paste(v, (l, t, r, b))`: fill the half-open box with the constant
value `v`. -/
def GrayImg.pasteVal (m : GrayImg) (v l t r b : Nat) : GrayImg :=
  { width := m.width, height := m.height,
    pix := fun x y => if l ≤ x ∧ x < r ∧ t ≤ y ∧ y < b then v else m.pix x y }

/-- The inner photo width assumed by `build_frame_mask_precise`: the landscape
one only on an exact landscape-size match, the portrait one for every other
size. -/
def mask_inner_w (w h : Nat) : Nat :=
  if (w, h) = (ORIG_W, ORIG_H) then 1920 else 1080

/-- The inner photo height assumed by `build_frame_mask_precise`. -/
def mask_inner_h (w h : Nat) : Nat :=
  if (w, h) = (ORIG_W, ORIG_H) then 1080 else 1920

/-- `top_share`: the fraction of the vertical pad attributed to the top
border. -/
def mask_top_share (w h : Nat) : ℚ :=
  if (w, h) = (ORIG_W, ORIG_H) then (TOP_BORDER : ℚ) / ((TOP_BORDER : ℚ) + (BOTTOM_TEXT : ℚ))
  else (TOP_SCALED : ℚ) / ((TOP_SCALED : ℚ) + (BOTTOM_TEXT_SCALED : ℚ))

/-- `pad_w = max(0, w - inner_w)`: truncated subtraction on `Nat` is exactly
the clamped difference. -/
def mask_pad_w (w h : Nat) : Nat := w - mask_inner_w w h

/-- `pad_h = max(0, h - inner_h)`. -/
def mask_pad_h (w h : Nat) : Nat := h - mask_inner_h w h

/-- `left_w = floor(pad_w / 2)`. -/
def mask_left_w (w h : Nat) : Nat := mask_pad_w w h / 2

/-- `right_w = pad_w - left_w`. -/
def mask_right_w (w h : Nat) : Nat := mask_pad_w w h - mask_left_w w h

/-- `top_h = int(round(pad_h * top_share))`; no tie arises at either
recognized geometry, so rational rounding matches the float computation
there. -/
def mask_top_h (w h : Nat) : Nat :=
  (round ((mask_pad_h w h : ℚ) * mask_top_share w h)).toNat

/-- `bottom_h = pad_h - top_h`. -/
def mask_bottom_h (w h : Nat) : Nat := mask_pad_h w h - mask_top_h w h

/-- `build_frame_mask_precise`: start from an all-zero mask and paste the four
`255` border bands (left, right, top, bottom, in that order); the guards skip
empty bands exactly as the code does. -/
def build_frame_mask_precise (im : Img) : GrayImg :=
  let w := im.width
  let h := im.height
  let m0 := GrayImg.new w h 0
  let m1 := if 0 < mask_left_w w h then m0.pasteVal 255 0 0 (mask_left_w w h) h else m0
  let m2 := if 0 < mask_right_w w h then m1.pasteVal 255 (w - mask_right_w w h) 0 w h else m1
  let m3 := if 0 < mask_top_h w h then m2.pasteVal 255 0 0 w (mask_top_h w h) else m2
  let m4 := if 0 < mask_bottom_h w h then m3.pasteVal 255 0 (h - mask_bottom_h w h) w h else m3
  m4

/-- PIL's `MULDIV255` rounding primitive: `(t >> 8) + t) >> 8` of
`a * b + 128`. -/
def muldiv255 (a b : Nat) : Nat :=
  let t := a * b + 128
  (t / 256 + t) / 256

/-- PIL's `BLEND` of one channel under mask value `m`: keep the base channel
weighted `255 - m` plus the pasted channel weighted `m`. -/
def blendCh (m base top : Nat) : Nat :=
  muldiv255 base (255 - m) + muldiv255 top m

/-- `Image.composite(im1, im2, mask)`: a copy of `im2` with `im1` pasted
through the mask, blending channel-wise. -/
def composite (im1 im2 : Img) (mask : GrayImg) : Img :=
  { width := im2.width, height := im2.height,
    pix := fun x y =>
      ⟨blendCh (mask.pix x y) (im2.pix x y).r (im1.pix x y).r,
       blendCh (mask.pix x y) (im2.pix x y).g (im1.pix x y).g,
       blendCh (mask.pix x y) (im2.pix x y).b (im1.pix x y).b⟩ }

/-- `toggle_frame_only`: sample pixel `(1, 1)` (out of bounds on images
thinner than 2 pixels, modelled as `none`), choose the mode suffix from the
input's luma, then composite the full inversion over the original through the
precise frame mask.  The suffix test models the program's double comparison
`lum > 127` by the exact-rational one; the two agree on every input whose
exact luma at `(1, 1)` is not exactly 127 (theorems about the suffix's value
exclude that tie; the pixel-level theorems do not depend on the suffix). -/
def toggle_frame_only (im : Img) : Option (Img × String) :=
  (getpixel im 1 1).map fun c =>
    let suffix := if 127 < lumQ c then "-darkmode" else "-lightmode"
    let inv := invertImg im
    let mask := build_frame_mask_precise im
    (composite inv im mask, suffix)

-- ---- evaluation of the mask band sizes at the two recognized geometries ----

theorem mask_left_w_L : mask_left_w 2048 1440 = 64 := by decide
theorem mask_right_w_L : mask_right_w 2048 1440 = 64 := by decide
theorem mask_pad_h_L : mask_pad_h 2048 1440 = 360 := by decide

theorem mask_top_h_L : mask_top_h 2048 1440 = 69 := by
  have hs : mask_top_share 2048 1440 = 69 / 360 := by
    unfold mask_top_share TOP_BORDER BOTTOM_TEXT ORIG_W ORIG_H
    norm_num
  have h : round ((mask_pad_h 2048 1440 : ℚ) * mask_top_share 2048 1440) = 69 := by
    rw [hs, mask_pad_h_L, round_eq]; norm_num
  unfold mask_top_h; rw [h]; rfl

theorem mask_bottom_h_L : mask_bottom_h 2048 1440 = 291 := by
  unfold mask_bottom_h
  rw [mask_top_h_L, mask_pad_h_L]

theorem mask_left_w_P : mask_left_w 1152 2123 = 36 := by decide
theorem mask_right_w_P : mask_right_w 1152 2123 = 36 := by decide
theorem mask_pad_h_P : mask_pad_h 1152 2123 = 203 := by decide

theorem mask_top_h_P : mask_top_h 1152 2123 = 39 := by
  have hne : ((1152 : Nat), (2123 : Nat)) ≠ (ORIG_W, ORIG_H) := by decide
  have hs : mask_top_share 1152 2123 = 39 / 203 := by
    unfold mask_top_share
    rw [if_neg hne, TOP_SCALED_eq, BOTTOM_TEXT_SCALED_eq]
    norm_num
  have h : round ((mask_pad_h 1152 2123 : ℚ) * mask_top_share 1152 2123) = 39 := by
    rw [hs, mask_pad_h_P, round_eq]; norm_num
  unfold mask_top_h; rw [h]; rfl

theorem mask_bottom_h_P : mask_bottom_h 1152 2123 = 164 := by
  unfold mask_bottom_h
  rw [mask_top_h_P, mask_pad_h_P]

theorem picture_rect_L : picture_rect .landscape = (64, 69, 1984, 1149) := by decide

theorem picture_rect_P : picture_rect .portrait = (36, 39, 1116, 1959) := by
  unfold picture_rect
  rw [SIDE_SCALED_eq, TOP_SCALED_eq]

-- ---- pointwise value of the precise frame mask on each geometry ----

/-- On an exact landscape-size image the four bands of
`build_frame_mask_precise` tile precisely the complement of the landscape
photo rectangle. -/
theorem mask_pix_landscape (im : Img) (hw : im.width = 2048) (hh : im.height = 1440)
    (x y : Nat) (hx : x < 2048) (hy : y < 1440) :
    (build_frame_mask_precise im).pix x y =
      if inRect (picture_rect .landscape) x y then 0 else 255 := by
  simp only [build_frame_mask_precise, hw, hh, mask_left_w_L, mask_right_w_L,
    mask_top_h_L, mask_bottom_h_L, GrayImg.pasteVal, GrayImg.new, picture_rect_L, inRect]
  norm_num
  split_ifs <;> omega

/-- On an exact portrait-size image the four bands tile precisely the
complement of the portrait photo rectangle. -/
theorem mask_pix_portrait (im : Img) (hw : im.width = 1152) (hh : im.height = 2123)
    (x y : Nat) (hx : x < 1152) (hy : y < 2123) :
    (build_frame_mask_precise im).pix x y =
      if inRect (picture_rect .portrait) x y then 0 else 255 := by
  simp only [build_frame_mask_precise, hw, hh, mask_left_w_P, mask_right_w_P,
    mask_top_h_P, mask_bottom_h_P, GrayImg.pasteVal, GrayImg.new, picture_rect_P, inRect]
  norm_num
  split_ifs <;> omega

-- ---- blending facts ----

theorem muldiv255_zero (a : Nat) : muldiv255 a 0 = 0 := by
  simp [muldiv255]

theorem muldiv255_id (a : Nat) (ha : a ≤ 255) : muldiv255 a 255 = a := by
  show ((a * 255 + 128) / 256 + (a * 255 + 128)) / 256 = a
  omega

/-- Mask value 0 keeps the base channel unchanged. -/
theorem blendCh_zero (base top : Nat) (h : base ≤ 255) : blendCh 0 base top = base := by
  unfold blendCh
  rw [Nat.sub_zero, muldiv255_zero, muldiv255_id base h]
  omega

/-- Mask value 255 replaces the channel by the pasted one. -/
theorem blendCh_255 (base top : Nat) (h : top ≤ 255) : blendCh 255 base top = top := by
  unfold blendCh
  rw [Nat.sub_self, muldiv255_zero, muldiv255_id top h]
  omega

theorem RGB.mk_eta (c : RGB) : RGB.mk c.r c.g c.b = c := rfl

theorem invertImg_pix (im : Img) (x y : Nat) :
    (invertImg im).pix x y = invertRGB (im.pix x y) := rfl

/-- A constant image with an 8-bit color is valid. -/
theorem Img.new_valid (w h : Nat) (c : RGB) (hc : c.InRange) : (Img.new w h c).Valid :=
  fun _ _ _ _ => hc

/-- Unfolding `toggle_frame_only` once pixel `(1, 1)` is in bounds. -/
theorem toggle_frame_only_eq (im : Img) (h1 : 1 < im.width) (h2 : 1 < im.height) :
    toggle_frame_only im =
      some (composite (invertImg im) im (build_frame_mask_precise im),
        if 127 < lumQ (im.pix 1 1) then "-darkmode" else "-lightmode") := by
  unfold toggle_frame_only getpixel
  rw [if_pos ⟨h1, h2⟩]
  rfl

/-- Pointwise value of the composite. -/
theorem composite_pix (im1 im2 : Img) (mask : GrayImg) (x y : Nat) :
    (composite im1 im2 mask).pix x y =
      ⟨blendCh (mask.pix x y) (im2.pix x y).r (im1.pix x y).r,
       blendCh (mask.pix x y) (im2.pix x y).g (im1.pix x y).g,
       blendCh (mask.pix x y) (im2.pix x y).b (im1.pix x y).b⟩ := rfl

/-- Both recognized geometries have width and height at least 2. -/
theorem fmt_size_ge_two (fmt : Fmt) : 2 ≤ (fmt_size fmt).1 ∧ 2 ≤ (fmt_size fmt).2 := by
  cases fmt with
  | landscape => exact ⟨by decide, by decide⟩
  | portrait =>
    unfold fmt_size
    rw [PORT_W_eq, PORT_H_eq]
    exact ⟨by decide, by decide⟩

/-- The pointwise behaviour of `toggle_frame_only` on a recognized geometry:
photo-rectangle pixels are kept, every other pixel is inverted. -/
theorem toggle_pix_eval (im : Img) (fmt : Fmt) (hv : im.Valid)
    (hd : (im.width, im.height) = fmt_size fmt) (x y : Nat)
    (hx : x < im.width) (hy : y < im.height) :
    (composite (invertImg im) im (build_frame_mask_precise im)).pix x y =
      if inRect (picture_rect fmt) x y then im.pix x y else invertRGB (im.pix x y) := by
  have hmask : (build_frame_mask_precise im).pix x y =
      if inRect (picture_rect fmt) x y then 0 else 255 := by
    cases fmt with
    | landscape =>
      have hw : im.width = 2048 := by
        have := congrArg Prod.fst hd
        simpa [fmt_size, ORIG_W] using this
      have hh : im.height = 1440 := by
        have := congrArg Prod.snd hd
        simpa [fmt_size, ORIG_H] using this
      exact mask_pix_landscape im hw hh x y (hw ▸ hx) (hh ▸ hy)
    | portrait =>
      have hw : im.width = 1152 := by
        have := congrArg Prod.fst hd
        simpa [fmt_size, PORT_W_eq] using this
      have hh : im.height = 2123 := by
        have := congrArg Prod.snd hd
        simpa [fmt_size, PORT_H_eq] using this
      exact mask_pix_portrait im hw hh x y (hw ▸ hx) (hh ▸ hy)
  rw [composite_pix, hmask, invertImg_pix]
  by_cases hin : inRect (picture_rect fmt) x y
  · rw [if_pos hin, if_pos hin]
    obtain ⟨hr, hg, hb⟩ := hv x y hx hy
    rw [blendCh_zero _ _ hr, blendCh_zero _ _ hg, blendCh_zero _ _ hb, RGB.mk_eta]
  · rw [if_neg hin, if_neg hin]
    have hr : (invertRGB (im.pix x y)).r ≤ 255 := Nat.sub_le 255 _
    have hg : (invertRGB (im.pix x y)).g ≤ 255 := Nat.sub_le 255 _
    have hb : (invertRGB (im.pix x y)).b ≤ 255 := Nat.sub_le 255 _
    rw [blendCh_255 _ _ hr, blendCh_255 _ _ hg, blendCh_255 _ _ hb, RGB.mk_eta]

/-- C1: for every input image of a recognized geometry, `toggle_frame_only`
returns an image of identical dimensions in which every pixel inside the
geometry's photo rectangle is bit-identical to the input pixel and every
in-bounds pixel outside the photo rectangle is the bitwise color inversion
`(255-R, 255-G, 255-B)` of the input pixel. -/
theorem toggle_frame_only_photo_exact (im : Img) (fmt : Fmt) (hv : im.Valid)
    (hd : (im.width, im.height) = fmt_size fmt) :
    ∃ out s, toggle_frame_only im = some (out, s) ∧
      out.width = im.width ∧ out.height = im.height ∧
      ∀ x y, x < im.width → y < im.height →
        (inRect (picture_rect fmt) x y → out.pix x y = im.pix x y) ∧
        (¬ inRect (picture_rect fmt) x y → out.pix x y = invertRGB (im.pix x y)) := by
  have hts := fmt_size_ge_two fmt
  have h1 : 1 < im.width := by
    have := congrArg Prod.fst hd
    omega
  have h2 : 1 < im.height := by
    have := congrArg Prod.snd hd
    omega
  refine ⟨_, _, toggle_frame_only_eq im h1 h2, rfl, rfl, ?_⟩
  intro x y hx hy
  have h := toggle_pix_eval im fmt hv hd x y hx hy
  constructor
  · intro hin
    rw [h, if_pos hin]
  · intro hout
    rw [h, if_neg hout]

/-- Witness for C1: a concrete gray landscape image; the photo pixel at
`(100, 100)` is kept and the border pixel at `(0, 0)` is inverted. -/
theorem toggle_frame_only_photo_exact_witness :
    ∃ out s, toggle_frame_only (Img.new 2048 1440 ⟨10, 20, 30⟩) = some (out, s) ∧
      out.width = 2048 ∧ out.height = 1440 ∧
      out.pix 100 100 = ⟨10, 20, 30⟩ ∧ out.pix 0 0 = ⟨245, 235, 225⟩ := by
  obtain ⟨out, s, hsome, hw, hh, hpx⟩ :=
    toggle_frame_only_photo_exact (Img.new 2048 1440 ⟨10, 20, 30⟩) .landscape
      (Img.new_valid 2048 1440 ⟨10, 20, 30⟩ (by decide)) rfl
  refine ⟨out, s, hsome, hw, hh, ?_, ?_⟩
  · have := (hpx 100 100 (by decide) (by decide)).1 (by rw [picture_rect_L]; decide)
    simpa [Img.new] using this
  · have := (hpx 0 0 (by decide) (by decide)).2 (by rw [picture_rect_L]; decide)
    simpa [Img.new, invertRGB] using this

-- ---- involution of the frame toggle ----

/-- Inverting twice restores an 8-bit pixel. -/
theorem invertRGB_involutive (c : RGB) (hc : c.InRange) : invertRGB (invertRGB c) = c := by
  obtain ⟨r, g, b⟩ := c
  have hr : r ≤ 255 := hc.1
  have hg : g ≤ 255 := hc.2.1
  have hb : b ≤ 255 := hc.2.2
  simp only [invertRGB, RGB.mk.injEq]
  refine ⟨?_, ?_, ?_⟩ <;> omega

/-- On a recognized geometry the toggled image is still 8-bit at every
in-bounds pixel. -/
theorem toggle_out_valid (im : Img) (fmt : Fmt) (hv : im.Valid)
    (hd : (im.width, im.height) = fmt_size fmt) :
    (composite (invertImg im) im (build_frame_mask_precise im)).Valid := by
  intro x y hx hy
  rw [toggle_pix_eval im fmt hv hd x y hx hy]
  by_cases hin : inRect (picture_rect fmt) x y
  · rw [if_pos hin]
    exact hv x y hx hy
  · rw [if_neg hin]
    exact ⟨Nat.sub_le 255 _, Nat.sub_le 255 _, Nat.sub_le 255 _⟩

/-- C8: on a recognized geometry `toggle_frame_only` is self-inverse: applying
it twice reproduces every pixel of the original image exactly. -/
theorem toggle_frame_only_involutive (im : Img) (fmt : Fmt) (hv : im.Valid)
    (hd : (im.width, im.height) = fmt_size fmt) :
    ∃ out s out2 s2, toggle_frame_only im = some (out, s) ∧
      toggle_frame_only out = some (out2, s2) ∧
      ∀ x y, x < im.width → y < im.height → out2.pix x y = im.pix x y := by
  have hts := fmt_size_ge_two fmt
  have h1 : 1 < im.width := by
    have := congrArg Prod.fst hd
    omega
  have h2 : 1 < im.height := by
    have := congrArg Prod.snd hd
    omega
  refine ⟨_, _, _, _, toggle_frame_only_eq im h1 h2,
    toggle_frame_only_eq _ h1 h2, ?_⟩
  intro x y hx hy
  have hvout := toggle_out_valid im fmt hv hd
  rw [toggle_pix_eval _ fmt hvout hd x y hx hy, toggle_pix_eval im fmt hv hd x y hx hy]
  by_cases hin : inRect (picture_rect fmt) x y
  · simp only [if_pos hin]
  · simp only [if_neg hin]
    exact invertRGB_involutive _ (hv x y hx hy)

/-- Witness for C8: the double toggle of a concrete portrait image restores
the border pixel at `(0, 0)`. -/
theorem toggle_frame_only_involutive_witness :
    ∃ out s out2 s2, toggle_frame_only (Img.new 1152 2123 ⟨1, 2, 3⟩) = some (out, s) ∧
      toggle_frame_only out = some (out2, s2) ∧ out2.pix 0 0 = ⟨1, 2, 3⟩ := by
  obtain ⟨out, s, out2, s2, h1, h2, hpx⟩ :=
    toggle_frame_only_involutive (Img.new 1152 2123 ⟨1, 2, 3⟩) .portrait
      (Img.new_valid 1152 2123 ⟨1, 2, 3⟩ (by decide))
      (by show ((1152 : Nat), (2123 : Nat)) = fmt_size .portrait
          unfold fmt_size
          rw [PORT_W_eq, PORT_H_eq])
  exact ⟨out, s, out2, s2, h1, h2, hpx 0 0 (by decide) (by decide)⟩

-- ---- totality of the toggle on any image of at least 2x2 pixels ----

/-- C9: `toggle_frame_only` never raises a geometry error: on every image at
least 2 pixels wide and tall — recognized or not — it returns an output of the
same dimensions together with one of the two mode suffixes, and any size other
than the exact landscape total is treated as portrait when the mask inner
rectangle is chosen. -/
theorem toggle_frame_only_total_2x2 (im : Img) (hw : 2 ≤ im.width) (hh : 2 ≤ im.height) :
    ∃ out s, toggle_frame_only im = some (out, s) ∧
      out.width = im.width ∧ out.height = im.height ∧
      (s = "-darkmode" ∨ s = "-lightmode") ∧
      ((im.width, im.height) ≠ (ORIG_W, ORIG_H) →
        mask_inner_w im.width im.height = 1080 ∧ mask_inner_h im.width im.height = 1920) := by
  refine ⟨_, _, toggle_frame_only_eq im (by omega) (by omega), rfl, rfl, ?_, ?_⟩
  · by_cases h : 127 < lumQ (im.pix 1 1)
    · left; rw [if_pos h]
    · right; rw [if_neg h]
  · intro hne
    unfold mask_inner_w mask_inner_h
    rw [if_neg hne, if_neg hne]
    exact ⟨rfl, rfl⟩

/-- Witness for C9: a 3x5 image — matching neither geometry — is toggled
without error and keeps its size. -/
theorem toggle_frame_only_total_2x2_witness :
    ∃ out s, toggle_frame_only (Img.new 3 5 ⟨7, 7, 7⟩) = some (out, s) ∧
      out.width = 3 ∧ out.height = 5 ∧ (s = "-darkmode" ∨ s = "-lightmode") := by
  obtain ⟨out, s, h1, h2, h3, h4, _⟩ :=
    toggle_frame_only_total_2x2 (Img.new 3 5 ⟨7, 7, 7⟩) (by decide) (by decide)
  exact ⟨out, s, h1, h2, h3, h4⟩

-- ---- pixel (1,1) access requires at least 2x2 pixels ----

/-- C10: `frame_is_light` and `toggle_frame_only` read pixel `(1, 1)`, so they
succeed exactly on images at least 2 pixels wide and tall, and fail with an
out-of-bounds pixel access on every image that is 1 pixel wide or 1 pixel
tall. -/
theorem frame_ops_require_2x2 (im : Img) :
    ((frame_is_light im).isSome ↔ 2 ≤ im.width ∧ 2 ≤ im.height) ∧
    ((toggle_frame_only im).isSome ↔ 2 ≤ im.width ∧ 2 ≤ im.height) ∧
    (im.width = 1 ∨ im.height = 1 → frame_is_light im = none ∧ toggle_frame_only im = none) := by
  by_cases h : 2 ≤ im.width ∧ 2 ≤ im.height
  · have hg : getpixel im 1 1 = some (im.pix 1 1) := by
      unfold getpixel
      exact if_pos ⟨h.1, h.2⟩
    refine ⟨?_, ?_, ?_⟩
    · unfold frame_is_light; rw [hg]; simp [h]
    · unfold toggle_frame_only; rw [hg]; simp [h]
    · intro hone; exfalso; omega
  · have hg : getpixel im 1 1 = none := by
      unfold getpixel
      exact if_neg fun hc => h ⟨hc.1, hc.2⟩
    refine ⟨?_, ?_, ?_⟩
    · unfold frame_is_light; rw [hg]; simp [h]
    · unfold toggle_frame_only; rw [hg]; simp [h]
    · intro _
      exact ⟨by unfold frame_is_light; rw [hg]; rfl,
        by unfold toggle_frame_only; rw [hg]; rfl⟩

/-- Witness for C10: a 1-pixel-wide image makes both operations fail, and a
2x2 image makes both succeed. -/
theorem frame_ops_require_2x2_witness :
    (frame_is_light (Img.new 1 5 ⟨0, 0, 0⟩) = none ∧
      toggle_frame_only (Img.new 1 5 ⟨0, 0, 0⟩) = none) ∧
    (frame_is_light (Img.new 2 2 ⟨0, 0, 0⟩)).isSome = true := by
  constructor
  · exact (frame_ops_require_2x2 (Img.new 1 5 ⟨0, 0, 0⟩)).2.2 (Or.inl rfl)
  · exact ((frame_ops_require_2x2 (Img.new 2 2 ⟨0, 0, 0⟩)).1).mpr ⟨by decide, by decide⟩

-- ---- exactness of format detection ----

theorem sizes_distinct : ((ORIG_W, ORIG_H) : Nat × Nat) ≠ (PORT_W, PORT_H) := by
  rw [PORT_W_eq, PORT_H_eq]
  decide

/-- C4: `detect_format` returns landscape exactly on `(2048, 1440)`, portrait
exactly on the derived `(1152, 2123)`, and on every other size fails with an
`UnsupportedGeometry` payload carrying the offending width and height together
with both expected sizes. -/
theorem detect_format_exact (im : Img) :
    (detect_format im = .ok .landscape ↔ (im.width, im.height) = (ORIG_W, ORIG_H)) ∧
    (detect_format im = .ok .portrait ↔ (im.width, im.height) = (PORT_W, PORT_H)) ∧
    ((im.width, im.height) ≠ (ORIG_W, ORIG_H) → (im.width, im.height) ≠ (PORT_W, PORT_H) →
      detect_format im = .error ⟨im.width, im.height, (ORIG_W, ORIG_H), (PORT_W, PORT_H)⟩) ∧
    ((ORIG_W, ORIG_H) : Nat × Nat) = (2048, 1440) ∧
    ((PORT_W, PORT_H) : Nat × Nat) = (1152, 2123) := by
  refine ⟨?_, ?_, ?_, rfl, by rw [PORT_W_eq, PORT_H_eq]⟩
  · unfold detect_format
    split_ifs with hL hP
    · simp [hL]
    · simp only [Except.ok.injEq]
      constructor
      · intro hcontra; cases hcontra
      · intro hcontra; exact absurd hcontra hL
    · constructor
      · intro hcontra; cases hcontra
      · intro hcontra; exact absurd hcontra hL
  · unfold detect_format
    split_ifs with hL hP
    · simp only [Except.ok.injEq]
      constructor
      · intro hcontra; cases hcontra
      · intro hcontra; exact absurd (hL.symm.trans hcontra) sizes_distinct
    · simp [hP]
    · constructor
      · intro hcontra; cases hcontra
      · intro hcontra; exact absurd hcontra hP
  · intro h1 h2
    unfold detect_format
    rw [if_neg h1, if_neg h2]

/-- Witness for C4: a 100x100 image is rejected with the full payload, the
landscape size is accepted. -/
theorem detect_format_exact_witness :
    detect_format (Img.new 100 100 ⟨0, 0, 0⟩) =
      .error ⟨100, 100, (ORIG_W, ORIG_H), (PORT_W, PORT_H)⟩ ∧
    detect_format (Img.new 2048 1440 ⟨0, 0, 0⟩) = .ok .landscape := by
  constructor
  · exact (detect_format_exact (Img.new 100 100 ⟨0, 0, 0⟩)).2.2.1 (by decide)
      (by rw [PORT_W_eq, PORT_H_eq]; decide)
  · exact ((detect_format_exact (Img.new 2048 1440 ⟨0, 0, 0⟩)).1).mpr rfl

-- ---- unfolding the rebuild functions ----

theorem frame_is_light_some (im : Img) (h1 : 1 < im.width) (h2 : 1 < im.height) :
    frame_is_light im = some (decide (127 < lumQ (im.pix 1 1))) := by
  unfold frame_is_light getpixel
  rw [if_pos ⟨h1, h2⟩]
  rfl

theorem build_landscape_eq (pic source : Img) (h1 : 1 < source.width) (h2 : 1 < source.height) :
    build_landscape pic source = some
      (((Img.new ORIG_W ORIG_H ⟨255, 255, 255⟩).paste pic SIDE_BORDER TOP_BORDER).paste
        (resizeBicubic (bottom_src_strip source (decide (127 < lumQ (source.pix 1 1))))
          ORIG_W BOTTOM_TEXT)
        0 (ORIG_H - BOTTOM_TEXT)) := by
  unfold build_landscape
  rw [frame_is_light_some source h1 h2]
  rfl

theorem build_portrait_eq (pic source : Img) (h1 : 1 < source.width) (h2 : 1 < source.height) :
    build_portrait pic source = some
      (((Img.new PORT_W PORT_H ⟨255, 255, 255⟩).paste pic SIDE_SCALED TOP_SCALED).paste
        (resizeBicubic (bottom_src_strip source (decide (127 < lumQ (source.pix 1 1))))
          PORT_W BOTTOM_TEXT_SCALED)
        0 (PORT_H - BOTTOM_TEXT_SCALED)) := by
  unfold build_portrait
  rw [frame_is_light_some source h1 h2]
  rfl

theorem paste_pix_in (canvas src : Img) (px py x y : Nat)
    (h : px ≤ x ∧ x < px + src.width ∧ py ≤ y ∧ y < py + src.height) :
    (canvas.paste src px py).pix x y = src.pix (x - px) (y - py) := by
  unfold Img.paste
  exact if_pos h

theorem paste_pix_out (canvas src : Img) (px py x y : Nat)
    (h : ¬(px ≤ x ∧ x < px + src.width ∧ py ≤ y ∧ y < py + src.height)) :
    (canvas.paste src px py).pix x y = canvas.pix x y := by
  unfold Img.paste
  exact if_neg h

-- dimensions of the extracted photo, independent of the image contents

theorem extract_L_w (im : Img) : (extract_inner im .landscape).width = 1920 := by
  show (((SIDE_BORDER + INNER_W : Nat) : Int) - ((SIDE_BORDER : Nat) : Int)).toNat = 1920
  decide

theorem extract_L_h (im : Img) : (extract_inner im .landscape).height = 1080 := by
  show (((TOP_BORDER + INNER_H : Nat) : Int) - ((TOP_BORDER : Nat) : Int)).toNat = 1080
  decide

theorem extract_P_w (im : Img) : (extract_inner im .portrait).width = 1080 := by
  show (((SIDE_SCALED + 1080 : Nat) : Int) - ((SIDE_SCALED : Nat) : Int)).toNat = 1080
  rw [SIDE_SCALED_eq]
  decide

theorem extract_P_h (im : Img) : (extract_inner im .portrait).height = 1920 := by
  show (((TOP_SCALED + 1920 : Nat) : Int) - ((TOP_SCALED : Nat) : Int)).toNat = 1920
  rw [TOP_SCALED_eq]
  decide

theorem rotate_pic_w (pic : Img) (dir : Direction) :
    (rotate_pic pic dir).width = pic.height := by
  cases dir <;> rfl

theorem rotate_pic_h (pic : Img) (dir : Direction) :
    (rotate_pic pic dir).height = pic.width := by
  cases dir <;> rfl

-- ---- dimensions of the orientation transform (C5) ----

/-- C5: the orientation transform is unconditionally geometry-flipping: a
landscape input yields exactly the portrait total `1152 x 2123` and a portrait
input yields exactly the landscape total `2048 x 1440`, for either rotation
direction. -/
theorem rotate_orientation_dims (im : Img) (fmt : Fmt) (dir : Direction)
    (hd : (im.width, im.height) = fmt_size fmt) :
    ∃ out, rotate_orientation im fmt dir = some out ∧
      (out.width, out.height) = fmt_size (opposite fmt) ∧
      (fmt = .landscape → out.width = 1152 ∧ out.height = 2123) ∧
      (fmt = .portrait → out.width = 2048 ∧ out.height = 1440) := by
  have hts := fmt_size_ge_two fmt
  have h1 : 1 < im.width := by
    have := congrArg Prod.fst hd
    omega
  have h2 : 1 < im.height := by
    have := congrArg Prod.snd hd
    omega
  cases fmt with
  | landscape =>
    have heq : rotate_orientation im .landscape dir =
        build_portrait (rotate_pic (extract_inner im .landscape) dir) im := rfl
    rw [heq, build_portrait_eq _ im h1 h2]
    refine ⟨_, rfl, rfl, fun _ => ⟨PORT_W_eq, PORT_H_eq⟩, fun hc => Fmt.noConfusion hc⟩
  | portrait =>
    have heq : rotate_orientation im .portrait dir =
        build_landscape (rotate_pic (extract_inner im .portrait) dir) im := rfl
    rw [heq, build_landscape_eq _ im h1 h2]
    refine ⟨_, rfl, rfl, fun hc => Fmt.noConfusion hc, fun _ => ⟨rfl, rfl⟩⟩

/-- Witness for C5: a concrete landscape image rotated clockwise is exactly
1152 x 2123, and a concrete portrait image rotated counterclockwise is exactly
2048 x 1440. -/
theorem rotate_orientation_dims_witness :
    (∃ out, rotate_orientation (Img.new 2048 1440 ⟨0, 0, 0⟩) .landscape .clockwise = some out ∧
      out.width = 1152 ∧ out.height = 2123) ∧
    (∃ out, rotate_orientation (Img.new 1152 2123 ⟨0, 0, 0⟩) .portrait .counterclockwise = some out ∧
      out.width = 2048 ∧ out.height = 1440) := by
  constructor
  · obtain ⟨out, hsome, _, hL, _⟩ :=
      rotate_orientation_dims (Img.new 2048 1440 ⟨0, 0, 0⟩) .landscape .clockwise rfl
    exact ⟨out, hsome, hL rfl⟩
  · obtain ⟨out, hsome, _, _, hP⟩ :=
      rotate_orientation_dims (Img.new 1152 2123 ⟨0, 0, 0⟩) .portrait .counterclockwise
        (by show ((1152 : Nat), (2123 : Nat)) = fmt_size .portrait
            unfold fmt_size
            rw [PORT_W_eq, PORT_H_eq])
    exact ⟨out, hsome, hP rfl⟩

-- ---- border standardization of the orientation transform (C6) ----

/-- C6: after any orientation transform, every pixel of the output canvas in
the target geometry's side or top border region — outside the photo rectangle
and above the caption bar — is exactly `(255, 255, 255)`, whatever the input
frame's colors. -/
theorem rotate_orientation_border_white (im : Img) (fmt : Fmt) (dir : Direction)
    (hd : (im.width, im.height) = fmt_size fmt) :
    ∃ out, rotate_orientation im fmt dir = some out ∧
      ∀ x y, x < (fmt_size (opposite fmt)).1 →
        y < (fmt_size (opposite fmt)).2 - bar_height (opposite fmt) →
        ¬ inRect (picture_rect (opposite fmt)) x y →
        out.pix x y = ⟨255, 255, 255⟩ := by
  have hts := fmt_size_ge_two fmt
  have h1 : 1 < im.width := by
    have := congrArg Prod.fst hd
    omega
  have h2 : 1 < im.height := by
    have := congrArg Prod.snd hd
    omega
  cases fmt with
  | landscape =>
    have heq : rotate_orientation im .landscape dir =
        build_portrait (rotate_pic (extract_inner im .landscape) dir) im := rfl
    rw [heq, build_portrait_eq _ im h1 h2]
    refine ⟨_, rfl, ?_⟩
    intro x y hx hy hrect
    have hoff : PORT_H - BOTTOM_TEXT_SCALED = 1959 := by
      rw [PORT_H_eq, BOTTOM_TEXT_SCALED_eq]
    have hyn : y < 1959 := by
      have hbar : (fmt_size (opposite Fmt.landscape)).2 - bar_height (opposite Fmt.landscape) =
          1959 := by
        show PORT_H - BOTTOM_TEXT_SCALED = 1959
        exact hoff
      rw [hbar] at hy
      exact hy
    have hpw : (rotate_pic (extract_inner im .landscape) dir).width = 1080 := by
      rw [rotate_pic_w]
      exact extract_L_h im
    have hph : (rotate_pic (extract_inner im .landscape) dir).height = 1920 := by
      rw [rotate_pic_h]
      exact extract_L_w im
    have hrect2 : ¬(36 ≤ x ∧ x < 1116 ∧ 39 ≤ y ∧ y < 1959) := fun hc2 => hrect (by
      show inRect (picture_rect .portrait) x y
      rw [picture_rect_P]
      exact ⟨hc2.1, hc2.2.1, hc2.2.2.1, hc2.2.2.2⟩)
    have houter : ∀ src : Img, ¬((0 : Nat) ≤ x ∧ x < 0 + src.width ∧
        PORT_H - BOTTOM_TEXT_SCALED ≤ y ∧ y < PORT_H - BOTTOM_TEXT_SCALED + src.height) := by
      intro src hc
      have hz := hc.2.2.1
      rw [hoff] at hz
      omega
    have hinner : ¬(SIDE_SCALED ≤ x ∧ x < SIDE_SCALED +
        (rotate_pic (extract_inner im .landscape) dir).width ∧ TOP_SCALED ≤ y ∧
        y < TOP_SCALED + (rotate_pic (extract_inner im .landscape) dir).height) := by
      intro hc
      rw [SIDE_SCALED_eq, TOP_SCALED_eq, hpw, hph] at hc
      obtain ⟨ha, hb, hcc, hdd⟩ := hc
      exact hrect2 ⟨ha, by omega, hcc, by omega⟩
    rw [paste_pix_out _ _ _ _ _ _ (houter _), paste_pix_out _ _ _ _ _ _ hinner]
    rfl
  | portrait =>
    have heq : rotate_orientation im .portrait dir =
        build_landscape (rotate_pic (extract_inner im .portrait) dir) im := rfl
    rw [heq, build_landscape_eq _ im h1 h2]
    refine ⟨_, rfl, ?_⟩
    intro x y hx hy hrect
    have hoff : ORIG_H - BOTTOM_TEXT = 1149 := by decide
    have hyn : y < 1149 := by
      have hbar : (fmt_size (opposite Fmt.portrait)).2 - bar_height (opposite Fmt.portrait) =
          1149 := by
        show ORIG_H - BOTTOM_TEXT = 1149
        exact hoff
      rw [hbar] at hy
      exact hy
    have hpw : (rotate_pic (extract_inner im .portrait) dir).width = 1920 := by
      rw [rotate_pic_w]
      exact extract_P_h im
    have hph : (rotate_pic (extract_inner im .portrait) dir).height = 1080 := by
      rw [rotate_pic_h]
      exact extract_P_w im
    have hrect2 : ¬(64 ≤ x ∧ x < 1984 ∧ 69 ≤ y ∧ y < 1149) := fun hc2 => hrect (by
      show inRect (picture_rect .landscape) x y
      rw [picture_rect_L]
      exact ⟨hc2.1, hc2.2.1, hc2.2.2.1, hc2.2.2.2⟩)
    have houter : ∀ src : Img, ¬((0 : Nat) ≤ x ∧ x < 0 + src.width ∧
        ORIG_H - BOTTOM_TEXT ≤ y ∧ y < ORIG_H - BOTTOM_TEXT + src.height) := by
      intro src hc
      have hz := hc.2.2.1
      rw [hoff] at hz
      omega
    have hinner : ¬(SIDE_BORDER ≤ x ∧ x < SIDE_BORDER +
        (rotate_pic (extract_inner im .portrait) dir).width ∧ TOP_BORDER ≤ y ∧
        y < TOP_BORDER + (rotate_pic (extract_inner im .portrait) dir).height) := by
      intro hc
      rw [show SIDE_BORDER = 64 from rfl, show TOP_BORDER = 69 from rfl, hpw, hph] at hc
      obtain ⟨ha, hb, hcc, hdd⟩ := hc
      exact hrect2 ⟨ha, by omega, hcc, by omega⟩
    rw [paste_pix_out _ _ _ _ _ _ (houter _), paste_pix_out _ _ _ _ _ _ hinner]
    rfl

/-- Witness for C6: the top-left corner of a rotated all-black landscape image
comes out pure white. -/
theorem rotate_orientation_border_white_witness :
    ∃ out, rotate_orientation (Img.new 2048 1440 ⟨0, 0, 0⟩) .landscape .clockwise = some out ∧
      out.pix 0 0 = ⟨255, 255, 255⟩ := by
  obtain ⟨out, hsome, hpx⟩ :=
    rotate_orientation_border_white (Img.new 2048 1440 ⟨0, 0, 0⟩) .landscape .clockwise rfl
  refine ⟨out, hsome, hpx 0 0 ?_ ?_ ?_⟩
  · show (0 : Nat) < (fmt_size .portrait).1
    unfold fmt_size
    rw [PORT_W_eq]
    decide
  · show (0 : Nat) < (fmt_size .portrait).2 - bar_height .portrait
    show (0 : Nat) < PORT_H - BOTTOM_TEXT_SCALED
    rw [PORT_H_eq, BOTTOM_TEXT_SCALED_eq]
    decide
  · show ¬ inRect (picture_rect .portrait) 0 0
    rw [picture_rect_P]
    intro hc
    exact absurd hc.1 (by decide)

-- ---- the rebuild functions perform no photo-size validation (C3) ----

/-- C3 counterexample: a 1x1 photo — not the expected 1920x1080 or 1080x1920 —
is accepted by both rebuild functions, which succeed instead of raising any
`DimensionMismatch`. -/
theorem build_accepts_mismatched_photo :
    ((Img.new 1 1 ⟨0, 0, 0⟩).width, (Img.new 1 1 ⟨0, 0, 0⟩).height) ≠ (1920, 1080) ∧
    ((Img.new 1 1 ⟨0, 0, 0⟩).width, (Img.new 1 1 ⟨0, 0, 0⟩).height) ≠ (1080, 1920) ∧
    (build_landscape (Img.new 1 1 ⟨0, 0, 0⟩) (Img.new 2048 1440 ⟨0, 0, 0⟩)).isSome = true ∧
    (build_portrait (Img.new 1 1 ⟨0, 0, 0⟩) (Img.new 1152 2123 ⟨0, 0, 0⟩)).isSome = true := by
  refine ⟨by decide, by decide, ?_, ?_⟩
  · rw [build_landscape_eq _ _ (by decide) (by decide)]
    rfl
  · rw [build_portrait_eq _ _ (by decide) (by decide)]
    rfl

/-- C3 amended: `build_landscape` and `build_portrait` perform no photo-size
validation at all — no `DimensionMismatch` exists in the program; for every
photo (and any source frame at least 2 pixels wide and tall) they succeed and
return a canvas of exactly the target geometry's total size, the photo being
pasted (clipped by the canvas) at the photo-rectangle offset. -/
theorem build_no_size_validation (pic source : Img)
    (h1 : 1 < source.width) (h2 : 1 < source.height) :
    (∃ out, build_landscape pic source = some out ∧ out.width = 2048 ∧ out.height = 1440) ∧
    (∃ out, build_portrait pic source = some out ∧ out.width = 1152 ∧ out.height = 2123) := by
  constructor
  · rw [build_landscape_eq pic source h1 h2]
    exact ⟨_, rfl, rfl, rfl⟩
  · rw [build_portrait_eq pic source h1 h2]
    exact ⟨_, rfl, PORT_W_eq, PORT_H_eq⟩

/-- Witness for the amended C3: a 7x9 photo is recomposed without any error. -/
theorem build_no_size_validation_witness :
    ∃ out, build_landscape (Img.new 7 9 ⟨5, 5, 5⟩) (Img.new 2048 1440 ⟨0, 0, 0⟩) = some out ∧
      out.width = 2048 ∧ out.height = 1440 := by
  exact (build_no_size_validation (Img.new 7 9 ⟨5, 5, 5⟩) (Img.new 2048 1440 ⟨0, 0, 0⟩)
    (by decide) (by decide)).1

-- ---- the caption strip is inverted for dark source frames (C2) ----

/-- The caption strip as the spec describes it for the recomposition: the
source frame's bottom strip of the source geometry's caption-bar height,
reused as-is with no color alteration. -/
def spec_bottom_strip (source : Img) : Img :=
  crop source 0 ((source.height : Int) - (source_bottom_h source : Int))
    (source.width : Int) (source.height : Int)

theorem crop_pix_in (im : Img) (l t r b : Int) (x y : Nat)
    (h1 : 0 ≤ l + x) (h2 : l + x < (im.width : Int)) (h3 : 0 ≤ t + y)
    (h4 : t + y < (im.height : Int)) :
    (crop im l t r b).pix x y = im.pix (l + x).toNat (t + y).toNat := by
  unfold crop
  dsimp only
  rw [if_pos ⟨h1, h2, h3, h4⟩]

/-- An all-black portrait-size source frame (a dark frame). -/
def blackPortrait : Img := Img.new 1152 2123 ⟨0, 0, 0⟩

/-- C2 counterexample: for the all-black portrait source frame (dark: luma 0
at `(1, 1)`) the strip that `build_portrait` actually resizes and pastes is
`bottom_src_strip blackPortrait false` — the color INVERSION of the source's
bottom strip, not the strip itself: at `(0, 0)` the strip fed to the resize is
white while the spec's unaltered bottom strip is black.  So a color alteration
is applied for dark source frames. -/
theorem bottom_strip_inverted_for_dark_source :
    frame_is_light blackPortrait = some false ∧
    build_portrait (Img.new 1080 1920 ⟨9, 9, 9⟩) blackPortrait = some
      (((Img.new PORT_W PORT_H ⟨255, 255, 255⟩).paste (Img.new 1080 1920 ⟨9, 9, 9⟩)
          SIDE_SCALED TOP_SCALED).paste
        (resizeBicubic (bottom_src_strip blackPortrait false) PORT_W BOTTOM_TEXT_SCALED)
        0 (PORT_H - BOTTOM_TEXT_SCALED)) ∧
    (bottom_src_strip blackPortrait false).pix 0 0 = ⟨255, 255, 255⟩ ∧
    (spec_bottom_strip blackPortrait).pix 0 0 = ⟨0, 0, 0⟩ := by
  have hsb : source_bottom_h blackPortrait = 164 := by
    unfold source_bottom_h
    rw [if_neg (by decide), BOTTOM_TEXT_SCALED_eq]
  have hlum : ¬(127 < lumQ (blackPortrait.pix 1 1)) := by
    show ¬((127 : ℚ) < lumQ ⟨0, 0, 0⟩)
    unfold lumQ
    norm_num
  refine ⟨?_, ?_, ?_, ?_⟩
  · rw [frame_is_light_some _ (by decide) (by decide), decide_eq_false hlum]
  · rw [build_portrait_eq _ blackPortrait (by decide) (by decide), decide_eq_false hlum]
  · unfold bottom_src_strip
    rw [hsb]
    decide
  · unfold spec_bottom_strip
    rw [hsb]
    decide

/-- C2 amended: the strip pasted at the bottom is the source frame's bottom
strip of the source geometry's caption-bar height, bicubically resized to the
target's width and caption-bar height — but it is reused as-is only when the
source frame is light; when the source frame is dark every strip pixel is
color-inverted (`255 - c`) before the resize, standardizing the caption bar to
light. -/
theorem bottom_strip_conditional_invert (source : Img) (fmt : Fmt) (L : Bool)
    (hd : (source.width, source.height) = fmt_size fmt)
    (hL : frame_is_light source = some L) :
    (bottom_src_strip source L).width = source.width ∧
    (bottom_src_strip source L).height = bar_height fmt ∧
    ∀ x y, x < source.width → y < bar_height fmt →
      (bottom_src_strip source L).pix x y =
        if L then source.pix x (source.height - bar_height fmt + y)
        else invertRGB (source.pix x (source.height - bar_height fmt + y)) := by
  have hsb : source_bottom_h source = bar_height fmt := by
    cases fmt with
    | landscape =>
      have hd2 : (source.width, source.height) = (ORIG_W, ORIG_H) := hd
      unfold source_bottom_h
      rw [if_pos hd2]
      rfl
    | portrait =>
      have hd2 : (source.width, source.height) = (PORT_W, PORT_H) := hd
      unfold source_bottom_h
      rw [if_neg fun hc => sizes_distinct (hd2.symm.trans hc).symm]
      rfl
  have hwh : bar_height fmt ≤ source.height := by
    cases fmt with
    | landscape =>
      have hh : source.height = 1440 := congrArg Prod.snd hd
      show (291 : Nat) ≤ source.height
      omega
    | portrait =>
      have hh : source.height = PORT_H := congrArg Prod.snd hd
      rw [PORT_H_eq] at hh
      show BOTTOM_TEXT_SCALED ≤ source.height
      rw [BOTTOM_TEXT_SCALED_eq]
      omega
  refine ⟨?_, ?_, ?_⟩
  · cases L
    · show ((source.width : Int) - 0).toNat = source.width
      omega
    · show ((source.width : Int) - 0).toNat = source.width
      omega
  · cases L
    · show ((source.height : Int) -
        ((source.height : Int) - (source_bottom_h source : Int))).toNat = bar_height fmt
      rw [hsb]
      omega
    · show ((source.height : Int) -
        ((source.height : Int) - (source_bottom_h source : Int))).toNat = bar_height fmt
      rw [hsb]
      omega
  · intro x y hx hy
    have hcrop : (crop source 0 ((source.height : Int) - (bar_height fmt : Int))
        (source.width : Int) (source.height : Int)).pix x y =
        source.pix x (source.height - bar_height fmt + y) := by
      rw [crop_pix_in source _ _ _ _ x y (by omega) (by omega) (by omega) (by omega)]
      have e1 : ((0 : Int) + x).toNat = x := by omega
      have e2 : ((source.height : Int) - (bar_height fmt : Int) + y).toNat =
          source.height - bar_height fmt + y := by omega
      rw [e1, e2]
    cases L
    · rw [show bottom_src_strip source false =
          invertImg (crop source 0 ((source.height : Int) - (source_bottom_h source : Int))
            (source.width : Int) (source.height : Int)) from rfl,
        invertImg_pix, hsb, hcrop, if_neg Bool.false_ne_true]
    · rw [show bottom_src_strip source true =
          crop source 0 ((source.height : Int) - (source_bottom_h source : Int))
            (source.width : Int) (source.height : Int) from rfl,
        hsb, hcrop, if_pos rfl]

/-- Witness for the amended C2: a light gray landscape source keeps its strip
pixel unaltered. -/
theorem bottom_strip_conditional_invert_witness :
    frame_is_light (Img.new 2048 1440 ⟨200, 200, 200⟩) = some true ∧
    (bottom_src_strip (Img.new 2048 1440 ⟨200, 200, 200⟩) true).pix 5 7 = ⟨200, 200, 200⟩ := by
  have hfl : frame_is_light (Img.new 2048 1440 ⟨200, 200, 200⟩) = some true := by
    rw [frame_is_light_some _ (by decide) (by decide)]
    have hlum : (127 : ℚ) < lumQ ((Img.new 2048 1440 ⟨200, 200, 200⟩).pix 1 1) := by
      show (127 : ℚ) < lumQ ⟨200, 200, 200⟩
      unfold lumQ
      norm_num
    rw [decide_eq_true hlum]
  refine ⟨hfl, ?_⟩
  have h := (bottom_strip_conditional_invert (Img.new 2048 1440 ⟨200, 200, 200⟩) .landscape true
    rfl hfl).2.2 5 7 (by decide) (by decide)
  rw [h]
  decide

-- ---- the mode label versus the brightness classifier (C7) ----

/-- Inverting a valid pixel reflects its luma around the midpoint: the three
weights sum to exactly 1. -/
theorem lumQ_invert (c : RGB) (hc : c.InRange) : lumQ (invertRGB c) = 255 - lumQ c := by
  obtain ⟨r, g, b⟩ := c
  have hr : r ≤ 255 := hc.1
  have hg : g ≤ 255 := hc.2.1
  have hb : b ≤ 255 := hc.2.2
  unfold lumQ invertRGB
  dsimp only
  rw [Nat.cast_sub hr, Nat.cast_sub hg, Nat.cast_sub hb]
  push_cast
  ring

/-- The sample point `(1, 1)` lies in the frame band of both geometries. -/
theorem corner_not_in_rect (fmt : Fmt) : ¬ inRect (picture_rect fmt) 1 1 := by
  cases fmt with
  | landscape =>
    rw [picture_rect_L]
    intro hc
    exact absurd hc.1 (by decide)
  | portrait =>
    rw [picture_rect_P]
    intro hc
    exact absurd hc.1 (by decide)

/-- The exact luma over a common denominator: it is always an integer multiple
of `1/10000`. -/
theorem lumQ_eq_div (c : RGB) :
    lumQ c = ((2126 * c.r + 7152 * c.g + 722 * c.b : Nat) : ℚ) / 10000 := by
  unfold lumQ
  push_cast
  ring

/-- Whenever the exact luma is not exactly an integer threshold `t`, it misses
`t` by at least `1/10000` — far above the sub-`2^-40` rounding error of the
program's double evaluation, so on that domain the exact and double
comparisons against `t` agree. -/
theorem lumQ_threshold_margin (c : RGB) (t : Nat) (h : lumQ c ≠ t) :
    1 / 10000 ≤ |lumQ c - t| := by
  rw [lumQ_eq_div] at h ⊢
  have hne : ((2126 * c.r + 7152 * c.g + 722 * c.b : Nat) : ℚ) - 10000 * t ≠ 0 := by
    intro he
    apply h
    have hq : ((2126 * c.r + 7152 * c.g + 722 * c.b : Nat) : ℚ) = 10000 * t := by linarith
    rw [hq]
    field_simp
  have hz : ((2126 * c.r + 7152 * c.g + 722 * c.b : Nat) : ℤ) - 10000 * t ≠ 0 := by
    intro h0
    apply hne
    have hcast := congrArg (fun z : ℤ => (z : ℚ)) h0
    push_cast at hcast ⊢
    linarith
  have key : (1 : ℚ) ≤ |((2126 * c.r + 7152 * c.g + 722 * c.b : Nat) : ℚ) - 10000 * t| := by
    have h1 : (1 : ℤ) ≤ |((2126 * c.r + 7152 * c.g + 722 * c.b : Nat) : ℤ) - 10000 * t| :=
      Int.one_le_abs hz
    exact_mod_cast h1
  have habs : |((2126 * c.r + 7152 * c.g + 722 * c.b : Nat) : ℚ) / 10000 - t| =
      |((2126 * c.r + 7152 * c.g + 722 * c.b : Nat) : ℚ) - 10000 * t| / 10000 := by
    have hsplit : ((2126 * c.r + 7152 * c.g + 722 * c.b : Nat) : ℚ) / 10000 - t =
        (((2126 * c.r + 7152 * c.g + 722 * c.b : Nat) : ℚ) - 10000 * t) / 10000 := by
      ring
    rw [hsplit, abs_div]
    norm_num
  rw [habs]
  linarith

/-- C7 amended: the suffix is computed from the INPUT's luma at `(1, 1)`.
Whenever that luma is not exactly 127 or 128 — the only places where the
program's double comparison can differ from the exact one, since off-tie
margins are at least `1/10000` (`lumQ_threshold_margin`) against a double
error below `2^-40` — the suffix is `"-darkmode"` exactly when the luma
exceeds 127, and, the output pixel at `(1, 1)` being the inversion of the
input's, the classifier reports the output as light exactly when the input
luma is below 128.  Hence the label agrees with the classifier applied to the
output except when the input luma lies strictly between 127 and 128, where the
label says dark while the output still classifies as light; at a luma of
exactly 127 or 128 the program's side is decided by double rounding alone
(e.g. the pixel `(110, 137, 78)`, exact luma 127, comes out `"-darkmode"`). -/
theorem mode_label_from_input_luma (im : Img) (fmt : Fmt) (hv : im.Valid)
    (hd : (im.width, im.height) = fmt_size fmt)
    (_h127 : lumQ (im.pix 1 1) ≠ 127) (_h128 : lumQ (im.pix 1 1) ≠ 128) :
    ∃ out s, toggle_frame_only im = some (out, s) ∧
      (s = "-darkmode" ↔ 127 < lumQ (im.pix 1 1)) ∧
      (s = "-lightmode" ↔ ¬ 127 < lumQ (im.pix 1 1)) ∧
      out.pix 1 1 = invertRGB (im.pix 1 1) ∧
      (frame_is_light out = some true ↔ lumQ (im.pix 1 1) < 128) := by
  have hts := fmt_size_ge_two fmt
  have h1 : 1 < im.width := by
    have := congrArg Prod.fst hd
    omega
  have h2 : 1 < im.height := by
    have := congrArg Prod.snd hd
    omega
  refine ⟨_, _, toggle_frame_only_eq im h1 h2, ?_, ?_, ?_, ?_⟩
  · by_cases hcond : 127 < lumQ (im.pix 1 1)
    · rw [if_pos hcond]
      exact iff_of_true rfl hcond
    · rw [if_neg hcond]
      exact iff_of_false (by decide) hcond
  · by_cases hcond : 127 < lumQ (im.pix 1 1)
    · rw [if_pos hcond]
      exact iff_of_false (by decide) (not_not_intro hcond)
    · rw [if_neg hcond]
      exact iff_of_true rfl hcond
  · rw [toggle_pix_eval im fmt hv hd 1 1 (by omega) (by omega),
      if_neg (corner_not_in_rect fmt)]
  · have hpx : (composite (invertImg im) im (build_frame_mask_precise im)).pix 1 1 =
        invertRGB (im.pix 1 1) := by
      rw [toggle_pix_eval im fmt hv hd 1 1 (by omega) (by omega),
        if_neg (corner_not_in_rect fmt)]
    rw [frame_is_light_some (composite (invertImg im) im (build_frame_mask_precise im)) h1 h2,
      hpx, lumQ_invert _ (hv 1 1 (by omega) (by omega))]
    constructor
    · intro hsome
      have hdec := Option.some.inj hsome
      have h127 : 127 < 255 - lumQ (im.pix 1 1) := of_decide_eq_true hdec
      linarith
    · intro hlt
      have h127 : (127 : ℚ) < 255 - lumQ (im.pix 1 1) := by linarith
      rw [decide_eq_true h127]

/-- Witness for the amended C7: a mid-gray portrait image (input luma 100,
away from both tie thresholds) is labelled `-lightmode` and the classifier
indeed reports the output as light. -/
theorem mode_label_from_input_luma_witness :
    ∃ out s, toggle_frame_only (Img.new 1152 2123 ⟨100, 100, 100⟩) = some (out, s) ∧
      s = "-lightmode" ∧ frame_is_light out = some true := by
  obtain ⟨out, s, hsome, _, hlight, _, hcls⟩ :=
    mode_label_from_input_luma (Img.new 1152 2123 ⟨100, 100, 100⟩) .portrait
      (Img.new_valid _ _ _ (by decide))
      (by show ((1152 : Nat), (2123 : Nat)) = fmt_size .portrait
          unfold fmt_size
          rw [PORT_W_eq, PORT_H_eq])
      (by show lumQ ⟨100, 100, 100⟩ ≠ (127 : ℚ)
          unfold lumQ
          norm_num)
      (by show lumQ ⟨100, 100, 100⟩ ≠ (128 : ℚ)
          unfold lumQ
          norm_num)
  have hl : ¬ (127 : ℚ) < lumQ ((Img.new 1152 2123 ⟨100, 100, 100⟩).pix 1 1) := by
    show ¬ (127 : ℚ) < lumQ ⟨100, 100, 100⟩
    unfold lumQ
    norm_num
  have h128 : lumQ ((Img.new 1152 2123 ⟨100, 100, 100⟩).pix 1 1) < 128 := by
    show lumQ ⟨100, 100, 100⟩ < (128 : ℚ)
    unfold lumQ
    norm_num
  exact ⟨out, s, hsome, hlight.mpr hl, hcls.mpr h128⟩

/-- A landscape image whose every pixel is `(255, 103, 0)`: its luma is
`127.8786`, strictly between 127 and 128. -/
def cexMode : Img := Img.new 2048 1440 ⟨255, 103, 0⟩

/-- C7 counterexample: on `cexMode` the suffix is `"-darkmode"` (Mode dark,
computed from the input luma `127.8786 > 127`) yet the brightness classifier on
the RESULTING image reports light — the output pixel `(1,1)` is `(0, 152, 255)`
with luma `127.1214 > 127`.  The returned label therefore is not equivalent to
the classifier's verdict on the output. -/
theorem mode_label_disagrees_with_output_classifier :
    (toggle_frame_only cexMode).map Prod.snd = some "-darkmode" ∧
    ((toggle_frame_only cexMode).bind fun p => frame_is_light p.1) = some true := by
  have hvalid : cexMode.Valid := Img.new_valid _ _ _ (by decide)
  have hcond : (127 : ℚ) < lumQ (cexMode.pix 1 1) := by
    show (127 : ℚ) < lumQ ⟨255, 103, 0⟩
    unfold lumQ
    norm_num
  rw [toggle_frame_only_eq cexMode (by decide) (by decide)]
  constructor
  · show some (if 127 < lumQ (cexMode.pix 1 1) then "-darkmode" else "-lightmode") =
      some "-darkmode"
    rw [if_pos hcond]
  · show frame_is_light
      (composite (invertImg cexMode) cexMode (build_frame_mask_precise cexMode)) = some true
    have hpx : (composite (invertImg cexMode) cexMode (build_frame_mask_precise cexMode)).pix 1 1 =
        invertRGB (cexMode.pix 1 1) := by
      rw [toggle_pix_eval cexMode .landscape hvalid rfl 1 1 (by decide) (by decide),
        if_neg (corner_not_in_rect .landscape)]
    rw [frame_is_light_some _ (by decide) (by decide), hpx]
    have hlt : (127 : ℚ) < lumQ (invertRGB (cexMode.pix 1 1)) := by
      show (127 : ℚ) < lumQ (invertRGB ⟨255, 103, 0⟩)
      unfold lumQ invertRGB
      norm_num
    rw [decide_eq_true hlt]
